import Mathlib

/-!
Verification of the SubwayBuilder-CPH installer (`src/install.js`).

The installer is a sequential Node.js script; its pure decision logic is
embedded below as executable Lean definitions, with the filesystem and the
network abstracted as explicit inputs (functions passed to the definitions).
Effectful steps (network requests, fatal exits) are modelled as event traces.
Machine-level details that no claim depends on (stream buffering, JSON
parsing of the manifest file itself) are not modelled; every branch of the
embedded functions mirrors a branch of the JavaScript source.
-/

/-- JavaScript `String.prototype.split` restricted to a one-character
separator, at the character-list level: every separator occurrence splits,
empty pieces are kept, and the empty string yields `[[]]`. -/
def jsSplitChar (sep : Char) : List Char → List (List Char)
  | [] => [[]]
  | c :: cs =>
    let r := jsSplitChar sep cs
    if c = sep then [] :: r
    else
      match r with
      | [] => [[c]]
      | h :: t => (c :: h) :: t

/-- JavaScript `s.split(sep)` for a one-character separator `sep`. -/
def jsSplit (s : String) (sep : Char) : List String :=
  (jsSplitChar sep s.toList).map (fun l => String.mk l)

/-- JavaScript `Array.prototype.join(sep)` on an array of strings. -/
def joinSep (sep : String) : List String → String
  | [] => ""
  | [s] => s
  | s :: rest => s ++ sep ++ joinSep sep rest

/-- Model of Node.js `path.join`: non-empty components are joined with the
separator; an all-empty join yields "." (so the result is never the empty
string). Path normalization is omitted (no claim depends on it). -/
def pathJoin (parts : List String) : String :=
  let joined := joinSep "/" (parts.filter (fun p => p ≠ ""))
  if joined = "" then "." else joined

theorem dotIfEmpty_ne_empty (s : String) : (if s = "" then "." else s) ≠ "" := by
  split <;> simp_all

theorem pathJoin_ne_empty (parts : List String) : pathJoin parts ≠ "" :=
  dotIfEmpty_ne_empty _

/-- The constant `GAME_FOLDER_NAME` (src/install.js:8). -/
def GAME_FOLDER_NAME : String := "metro-maker4"

/-- The constant `DATA_FILES` (src/install.js:45-51). -/
def DATA_FILES : List String :=
  ["roads.geojson.gz", "runways_taxiways.geojson.gz", "ocean_depth_index.json.gz",
   "buildings_index.json.gz", "demand_data.json.gz"]

/-- `manifest.id ? manifest.id.split('.') : []` (src/install.js:27).
`manifest.id` is modelled as `Option String` (`none` = the field is absent);
JavaScript truthiness makes the empty string take the `[]` branch too. -/
def manifestIdParts (id : Option String) : List String :=
  match id with
  | some s => if s ≠ "" then jsSplit s '.' else []
  | none => []

/-- The `author` / `cityName` computation (src/install.js:28-38): defaults
`("Unknown", "Mod")`; with at least three dot-segments the author is the
second segment and the city name is the remaining segments rejoined with ".";
otherwise a truthy (present, non-empty) id is used whole as the city name. -/
def authorCity (id : Option String) : String × String :=
  let idParts := manifestIdParts id
  if idParts.length ≥ 3 then
    (idParts.getD 1 "Unknown", joinSep "." (idParts.drop 2))
  else
    match id with
    | some s => if s ≠ "" then ("Unknown", s) else ("Unknown", "Mod")
    | none => ("Unknown", "Mod")

/-- What one `https.get(url, ...)` delivers in `downloadFileWithRedirects`:
either the `error` event or a response with a status code, an optional
`Location` header and a body (a byte list). -/
inductive NetResult where
  | err (msg : String)
  | resp (status : Nat) (location : Option String) (body : List Nat)
deriving DecidableEq

/-- How one run of `downloadFileWithRedirects` can settle its promise. -/
inductive DownloadOutcome where
  | success (body : List Nat)
  | netError (msg : String)
  | badStatus (code : Nat)
  | redirectNoLocation
deriving DecidableEq

/-- The recursive `request` closure of `downloadFileWithRedirects`
(src/install.js:54-84), with the network abstracted as `env : url → NetResult`.
The result pairs the settled outcome with whether `fs.unlink(destPath)` was
invoked (only the `error` handler, line 78, unlinks; the status-code reject
branches do not). `fuel` bounds the recursion depth of the embedding; `none`
means the recursion did not settle within `fuel` hops, so
`∀ fuel, ... = none` states that the source code never settles. On success
the final response body is what was piped into the destination file. -/
def downloadFileWithRedirects (env : String → NetResult) :
    Nat → String → Option (DownloadOutcome × Bool)
  | 0, _ => none
  | fuel + 1, url =>
    match env url with
    | NetResult.err m => some (DownloadOutcome.netError m, true)
    | NetResult.resp status location body =>
      if status = 301 ∨ status = 302 then
        match location with
        | some l => downloadFileWithRedirects env fuel l
        | none => some (DownloadOutcome.redirectNoLocation, false)
      else if status ≠ 200 then some (DownloadOutcome.badStatus status, false)
      else some (DownloadOutcome.success body, false)

/-- A network in which every URL answers 301 with a `Location` header
pointing back at the same URL: the simplest unterminated redirect chain. -/
def selfRedirectEnv : String → NetResult :=
  fun url => NetResult.resp 301 (some url) []

/-- A network in which every URL answers a plain 404 with no body. -/
def notFoundEnv : String → NetResult :=
  fun _ => NetResult.resp 404 none []

/-- A network in which every request fires the `error` event. -/
def errorEnv : String → NetResult :=
  fun _ => NetResult.err "socket hang up"

/-- The GitHub API path requested by `getLatestPmtilesVersion`
(src/install.js:89-94). -/
def releasesLatestPath : String :=
  "api.github.com/repos/protomaps/go-pmtiles/releases/latest"

/-- The filename computation of `getPmtilesUrl` (src/install.js:120-140):
`filename` stays empty exactly when the platform/arch pair has no branch, in
which case the source exits fatally; modelled as `none`. (The Darwin
filenames use a hyphen after `go-pmtiles`, as the source does.) -/
def pmtilesFilename (version platform arch : String) : Option String :=
  if platform = "win32" then
    if arch = "x64" then some ("go-pmtiles_" ++ version ++ "_Windows_x86_64.zip")
    else if arch = "arm64" then some ("go-pmtiles_" ++ version ++ "_Windows_arm64.zip")
    else none
  else if platform = "darwin" then
    if arch = "x64" then some ("go-pmtiles-" ++ version ++ "_Darwin_x86_64.zip")
    else if arch = "arm64" then some ("go-pmtiles-" ++ version ++ "_Darwin_arm64.zip")
    else none
  else if platform = "linux" then
    if arch = "x64" then some ("go-pmtiles_" ++ version ++ "_Linux_x86_64.tar.gz")
    else if arch = "arm64" then some ("go-pmtiles_" ++ version ++ "_Linux_arm64.tar.gz")
    else none
  else none

/-- `baseUrl` of `getPmtilesUrl` (src/install.js:142). -/
def pmtilesBaseUrl (version : String) : String :=
  "https://github.com/protomaps/go-pmtiles/releases/download/v" ++ version ++ "/"

/-- The fatal message of `getPmtilesUrl` (src/install.js:138). -/
def unsupportedPlatformMsg : String := "ERROR: Unsupported platform/arch for pmtiles."

/-- Observable events of one `installPmtiles` run, in order. -/
inductive PmEvent where
  | ensureScriptsDir
  | netRequest (url : String)
  | fatalExit (msg : String)
  | extract (filename : String)
  | done
deriving DecidableEq

/-- Whether a `PmEvent` is a network request. -/
def PmEvent.isNetRequest : PmEvent → Bool
  | PmEvent.netRequest _ => true
  | _ => false

/-- Event trace of `installPmtiles` (src/install.js:152-183) up to the point
where extraction starts. Inputs: `exeExists` is the `fs.existsSync(finalExePath)`
check of line 164; `versionResult` is what `getLatestPmtilesVersion` delivers
(`none` = rejected, which line 176 turns into a fatal exit); `platform`/`arch`
feed `getPmtilesUrl`. The trace mirrors the source order: ensure the scripts
directory, CHECK the executable, request the latest release version over the
network, build the platform URL (fatal when unsupported), then request the
archive download. -/
def installPmtilesEvents (exeExists : Bool) (versionResult : Option String)
    (platform arch : String) : List PmEvent :=
  if exeExists then [PmEvent.ensureScriptsDir, PmEvent.done]
  else
    [PmEvent.ensureScriptsDir, PmEvent.netRequest releasesLatestPath] ++
      match versionResult with
      | none => [PmEvent.fatalExit "Failed to check latest version"]
      | some v =>
        match pmtilesFilename v platform arch with
        | none => [PmEvent.fatalExit unsupportedPlatformMsg]
        | some fn =>
          [PmEvent.netRequest (pmtilesBaseUrl v ++ fn), PmEvent.extract fn, PmEvent.done]

/-- `getGameDataPath` (src/install.js:327-348). `appdataEnv` models
`process.env.APPDATA` (`none` = variable not set); `homedir` models
`os.homedir()`. The `!appDataPath` falsiness check of line 342 fails for an
absent value and for the empty string; `none` in the result is the fatal exit
of lines 343-344, `some p` is the returned path. -/
def getGameDataPath (platform : String) (appdataEnv : Option String)
    (homedir : String) : Option String :=
  let appDataPath : Option String :=
    if platform = "win32" then appdataEnv
    else if platform = "darwin" then
      some (pathJoin [homedir, "Library", "Application Support"])
    else
      some (pathJoin [homedir, ".config"])
  match appDataPath with
  | none => none
  | some s => if s = "" then none else some (pathJoin [s, GAME_FOLDER_NAME])

/-- The filesystem as `findSourceDataFolder` observes it: `isDir p` is
`fs.existsSync(p) && fs.lstatSync(p).isDirectory()`, and `listDir p` is
`fs.readdirSync(p)`. -/
structure FSModel where
  isDir : String → Bool
  listDir : String → List String

/-- `findSourceDataFolder` (src/install.js:351-372): return `startDir/data`
when it is a directory; otherwise filter the entries of `startDir` down to
directories and return the first one whose `data` child is a directory;
otherwise `null`. -/
def findSourceDataFolder (fs : FSModel) (startDir : String) : Option String :=
  let directPath := pathJoin [startDir, "data"]
  if fs.isDir directPath then some directPath
  else
    let subdirs := (fs.listDir startDir).filter (fun f => fs.isDir (pathJoin [startDir, f]))
    match subdirs.find? (fun subdir => fs.isDir (pathJoin [startDir, subdir, "data"])) with
    | some subdir => some (pathJoin [startDir, subdir, "data"])
    | none => none

/-- The Windows `serve.bat` template of `createServeBatch`
(src/install.js:384-396), as a function of the interpolated values. -/
def serveBatchContentWin (displayName scriptsDir : String) : String :=
  "@echo off\ntitle PMTiles Server (" ++ displayName ++
  ")\necho Starting map server...\necho This window must remain open while playing.\necho.\ncd /d \"" ++
  scriptsDir ++
  "\"\n.\\pmtiles.exe serve . --port 8081 --cors=*\nif %errorlevel% neq 0 (\n    echo.\n    echo Error: Could not start pmtiles.exe\n    pause\n)\n"

/-- The Unix `serve.sh` template of `createServeBatch`
(src/install.js:400-419), as a function of the interpolated value. -/
def serveBatchContentUnix (scriptsDir : String) : String :=
  "#!/usr/bin/env sh\n\necho \"Starting map server...\"\necho \"This window must remain open while playing.\"\necho\n\n# Navigate to the script directory\ncd \"" ++
  scriptsDir ++
  "\"\n\n# Run pmtiles (Linux/macOS binary assumed to be named 'pmtiles')\n./pmtiles serve . --port 8081 --cors=\"*\"\nstatus=$?\n\nif [ $status -ne 0 ]; then\n    echo\n    echo \"Error: Could not start pmtiles\"\n    # macOS/Linux equivalent of 'pause'\n    read -r -p \"Press Enter to exit...\"\nfi\n"

/-- `createServeBatch(baseDir)` (src/install.js:375-429): computes
`scriptsDir = path.join(baseDir, 'scripts')` (line 376), picks the template
and extension by platform, and writes the content to
`path.join(baseDir, 'serve' + fext)`. Returned as (file path, content). -/
def createServeBatch (platform displayName : String) (baseDir : String) :
    String × String :=
  let scriptsDir := pathJoin [baseDir, "scripts"]
  if platform = "win32" then
    (pathJoin [baseDir, "serve.bat"], serveBatchContentWin displayName scriptsDir)
  else
    (pathJoin [baseDir, "serve.sh"], serveBatchContentUnix scriptsDir)

/-- The call site `createServeBatch(currentDir, scriptsDir)`
(src/install.js:497): the JavaScript function is declared with the single
parameter `baseDir` (line 375), so the second call-site argument is dropped
by JavaScript call semantics; only `currentDir` is bound. -/
def createServeBatchCall (platform displayName : String)
    (currentDir scriptsDirArg : String) : String × String :=
  createServeBatch platform displayName currentDir

/-- Per-file observable event of the copy loop in `install`
(src/install.js:460-476). -/
inductive FileEvent where
  | copied (f : String)
  | copyError (f : String)
  | warnMissing (f : String)
deriving DecidableEq

/-- The copy loop of `install` (src/install.js:458-476): for each file in
order, when the source file exists (`srcHas`) copy it — `copyOk` models
whether `fs.copyFileSync` succeeds — incrementing `filesMoved` on success and
only logging on a copy error; a missing source file produces a warning.
No branch aborts the loop. Returns (`filesMoved`, events in order). -/
def copyDataFiles (srcHas copyOk : String → Bool) : List String → Nat × List FileEvent
  | [] => (0, [])
  | f :: rest =>
    let e : Nat × FileEvent :=
      if srcHas f then
        if copyOk f then (1, FileEvent.copied f) else (0, FileEvent.copyError f)
      else (0, FileEvent.warnMissing f)
    let r := copyDataFiles srcHas copyOk rest
    (e.1 + r.1, e.2 :: r.2)

/-- How a run of `install` (src/install.js:431-507) ends. -/
inductive InstallOutcome where
  | fatal (msg : String)
  | completed (filesMoved : Nat) (events : List FileEvent)
deriving DecidableEq

/-- `install` (src/install.js:431-507): fatal exit when `findSourceDataFolder`
returned null (lines 441-447); then the copy loop over `DATA_FILES` and its
summary; then `installPmtiles`, whose fatal exits are modelled by
`pmtilesOk = false`; the remaining steps (createServeBatch, final messages)
never exit, and the process then terminates with status 0. -/
def installRun (sourceFound : Bool) (srcHas copyOk : String → Bool)
    (pmtilesOk : Bool) : InstallOutcome :=
  if sourceFound = false then
    InstallOutcome.fatal "ERROR: Couldn't find folder 'data' with the files."
  else
    let r := copyDataFiles srcHas copyOk DATA_FILES
    if pmtilesOk = false then InstallOutcome.fatal "pmtiles install failed"
    else InstallOutcome.completed r.1 r.2

/-- The process exit status for an `InstallOutcome`: every fatal branch calls
`process.exit(1)`; a completed run exits 0. -/
def exitCodeOf : InstallOutcome → Nat
  | InstallOutcome.fatal _ => 1
  | InstallOutcome.completed _ _ => 0

/-- Destination-directory state transformer of the copy loop
(src/install.js:460-476), at the level of file bytes: `src`/`dest` map a file
name to its byte content (`none` = absent). For each file in order, when the
source has it, `fs.copyFileSync` writes the source bytes over whatever the
destination held (`copyFileSync` overwrites existing files, line 466);
a missing source leaves the destination entry unchanged. -/
def applyCopy (src : String → Option (List Nat)) (dest : String → Option (List Nat)) :
    List String → (String → Option (List Nat))
  | [] => dest
  | f :: rest =>
    let destNext : String → Option (List Nat) := fun g =>
      match src f with
      | some b => if g = f then some b else dest g
      | none => dest g
    applyCopy src destNext rest

/-! ## Helper lemmas -/

theorem find?_filter_eq {α : Type} (l : List α) (p q : α → Bool) :
    (l.filter p).find? q = l.find? (fun a => p a && q a) := by
  induction l with
  | nil => rfl
  | cons a l ih =>
    by_cases hp : p a
    · by_cases hq : q a
      · simp [List.filter_cons, hp, List.find?_cons, hq]
      · simp [List.filter_cons, hp, List.find?_cons, hq, ih]
    · simp [List.filter_cons, hp, List.find?_cons, ih]

theorem copyDataFiles_allOk (srcHas : String → Bool) (l : List String) :
    copyDataFiles srcHas (fun _ => true) l =
      (l.countP srcHas,
       l.map (fun f => if srcHas f then FileEvent.copied f else FileEvent.warnMissing f)) := by
  induction l with
  | nil => rfl
  | cons f rest ih =>
    by_cases h : srcHas f <;>
      simp [copyDataFiles, ih, h, List.countP_cons, Nat.add_comm]

theorem applyCopy_apply (src dest : String → Option (List Nat))
    (l : List String) (g : String) :
    applyCopy src dest l g =
      if l.any (fun f => f == g && (src f).isSome) then src g else dest g := by
  induction l generalizing dest with
  | nil => simp [applyCopy]
  | cons f rest ih =>
    simp only [applyCopy]
    rw [ih]
    by_cases hr : rest.any (fun f => f == g && (src f).isSome)
    · simp [List.any_cons, hr]
    · simp only [List.any_cons, hr, Bool.or_false, if_neg]
      by_cases hfg : f = g
      · subst hfg
        cases hsf : src f with
        | some b => simp [hsf]
        | none => simp [hsf]
      · have hbeq : (f == g) = false := by
          simp [hfg]
        cases hsf : src f with
        | some b =>
          have : ¬ (g = f) := fun h => hfg h.symm
          simp [hsf, hbeq, this]
        | none => simp [hsf, hbeq]

/-! ## Claim C1 -/

/-- Claim C1 (code_bug evidence): `downloadFileWithRedirects` has no cap on
the redirect chain. On a cyclic chain (every URL redirecting to itself) the
recursive `request` closure never settles the promise, whatever recursion
depth it is granted: the run neither succeeds nor fails, contradicting the
requirement that a chain exceeding the cap fail rather than loop forever. -/
theorem downloadFileWithRedirects_cycle_diverges (fuel : Nat) (url : String) :
    downloadFileWithRedirects selfRedirectEnv fuel url = none := by
  induction fuel generalizing url with
  | zero => rfl
  | succ n ih => simp [downloadFileWithRedirects, selfRedirectEnv, ih]

/-- Claim C1 auxiliary fact (not a claim theorem): a finite chain of six
redirects — longer than the suggested cap of 5 hops — still resolves
successfully in the source, confirming that no cap of any size exists. -/
theorem downloadFileWithRedirects_six_hops_succeed :
    downloadFileWithRedirects
      (fun u =>
        if u = "u6" then NetResult.resp 200 none [7, 7]
        else if u = "u0" then NetResult.resp 301 (some "u1") []
        else if u = "u1" then NetResult.resp 302 (some "u2") []
        else if u = "u2" then NetResult.resp 301 (some "u3") []
        else if u = "u3" then NetResult.resp 302 (some "u4") []
        else if u = "u4" then NetResult.resp 301 (some "u5") []
        else if u = "u5" then NetResult.resp 302 (some "u6") []
        else NetResult.err "no route")
      7 "u0" = some (DownloadOutcome.success [7, 7], false) := by
  decide

/-! ## Claim C2 -/

/-- Claim C2 counterexample: with the helper executable absent, on the
unsupported pair (linux, ia32) the run issues the version-resolution network
request to the GitHub API *before* reaching the unsupported-platform fatal
exit, so the fatal exit is not "before any network request is issued": the
trace holds one network request, not zero. -/
theorem installPmtiles_unsupported_counterexample :
    installPmtilesEvents false (some "1.22.0") "linux" "ia32" =
      [PmEvent.ensureScriptsDir, PmEvent.netRequest releasesLatestPath,
       PmEvent.fatalExit unsupportedPlatformMsg] ∧
    (installPmtilesEvents false (some "1.22.0") "linux" "ia32").countP
      PmEvent.isNetRequest ≠ 0 := by
  decide

/-- Claim C2 as amended: on every unsupported platform/architecture pair
with the helper executable absent and the version lookup succeeding, the run
exits fatally with the unsupported-platform message after exactly the one
version-resolution API request and before any archive download request. -/
theorem installPmtiles_unsupported_after_version_request
    (v platform arch : String) (h : pmtilesFilename v platform arch = none) :
    installPmtilesEvents false (some v) platform arch =
      [PmEvent.ensureScriptsDir, PmEvent.netRequest releasesLatestPath,
       PmEvent.fatalExit unsupportedPlatformMsg] := by
  simp [installPmtilesEvents, h]

/-- Witness for the amended C2 theorem at the concrete input
(version "1.0", platform "sunos", arch "x64"). -/
theorem installPmtiles_unsupported_after_version_request_witness :
    pmtilesFilename "1.0" "sunos" "x64" = none ∧
    installPmtilesEvents false (some "1.0") "sunos" "x64" =
      [PmEvent.ensureScriptsDir, PmEvent.netRequest releasesLatestPath,
       PmEvent.fatalExit unsupportedPlatformMsg] :=
  ⟨by decide, installPmtiles_unsupported_after_version_request "1.0" "sunos" "x64" (by decide)⟩

/-! ## Claim C3 -/

/-- Claim C3 counterexample: on a terminal 404 response the promise is
rejected but `fs.unlink` is never called (only the network `error` handler
at src/install.js:78 unlinks), so the destination file created by
`fs.createWriteStream` is left behind: the removal flag is `false`. -/
theorem download_badStatus_keeps_file_counterexample :
    downloadFileWithRedirects notFoundEnv 1 "https://example.com/pack.zip" =
      some (DownloadOutcome.badStatus 404, false) := by
  decide

/-- Claim C3 as amended: whenever a run of `downloadFileWithRedirects`
settles, the destination file has been removed if and only if the terminal
event was a network error; a non-2xx terminal status (or a redirect without
a `Location` header) fails the run with the partially written destination
file left in place. -/
theorem download_file_removed_iff_network_error (env : String → NetResult)
    (fuel : Nat) (url : String) (res : DownloadOutcome) (removed : Bool)
    (h : downloadFileWithRedirects env fuel url = some (res, removed)) :
    removed = true ↔ ∃ m, res = DownloadOutcome.netError m := by
  induction fuel generalizing url with
  | zero => simp [downloadFileWithRedirects] at h
  | succ n ih =>
    cases henv : env url with
    | err m =>
      simp only [downloadFileWithRedirects, henv] at h
      simp at h
      obtain ⟨h1, h2⟩ := h
      subst h1
      simp [← h2]
    | resp status location body =>
      simp only [downloadFileWithRedirects, henv] at h
      by_cases hredir : status = 301 ∨ status = 302
      · rw [if_pos hredir] at h
        cases location with
        | some l => exact ih l h
        | none =>
          simp at h
          obtain ⟨h1, h2⟩ := h
          subst h1
          simp [← h2]
      · rw [if_neg hredir] at h
        by_cases h200 : status ≠ 200
        · rw [if_pos h200] at h
          simp at h
          obtain ⟨h1, h2⟩ := h
          subst h1
          simp [← h2]
        · rw [if_neg h200] at h
          simp at h
          obtain ⟨h1, h2⟩ := h
          subst h1
          simp [← h2]

/-- Witness for the amended C3 theorem: a network error on the first hop
removes the file (`removed = true`) and the outcome is the network error. -/
theorem download_file_removed_iff_network_error_witness :
    downloadFileWithRedirects errorEnv 1 "https://example.com/pack.zip" =
      some (DownloadOutcome.netError "socket hang up", true) ∧
    (true = true ↔ ∃ m, DownloadOutcome.netError "socket hang up" = DownloadOutcome.netError m) :=
  ⟨by decide,
   download_file_removed_iff_network_error errorEnv 1 "https://example.com/pack.zip"
     (DownloadOutcome.netError "socket hang up") true (by decide)⟩

/-! ## Claim C4 -/

/-- Claim C4 counterexample: for the present-but-empty identifier `""`
(one dot-segment, hence fewer than three), the claim requires the whole
identifier `""` as the target folder name, but the JavaScript truthiness
check `manifest.id ?` (src/install.js:27,35) treats the empty string like an
absent field, so the fallback "Mod" is used instead. -/
theorem manifest_empty_id_counterexample :
    authorCity (some "") = ("Unknown", "Mod") ∧ (authorCity (some "")).2 ≠ "" := by
  decide

/-- Claim C4 as amended: for a present, non-empty identifier with at least
three dot-segments the author is the second segment and the target folder
name is the remaining segments rejoined with "."; for a present, non-empty
identifier with fewer than three segments the whole identifier is the target
folder name; for an absent or empty identifier the target folder name is the
fixed fallback "Mod" (and the author the sentinel "Unknown"). -/
theorem manifest_authorCity_amended (id : Option String) :
    (∀ s, id = some s → s ≠ "" →
      (3 ≤ (jsSplit s '.').length →
        authorCity id =
          ((jsSplit s '.').getD 1 "Unknown", joinSep "." ((jsSplit s '.').drop 2))) ∧
      ((jsSplit s '.').length < 3 → authorCity id = ("Unknown", s))) ∧
    ((id = none ∨ id = some "") → authorCity id = ("Unknown", "Mod")) := by
  constructor
  · rintro s rfl hs
    have hid : manifestIdParts (some s) = jsSplit s '.' := by
      simp [manifestIdParts, hs]
    constructor
    · intro h3
      simp only [authorCity, hid]
      rw [if_pos h3]
    · intro h3
      simp only [authorCity, hid]
      rw [if_neg (by omega)]
      simp [hs]
  · rintro (rfl | rfl) <;> simp [authorCity, manifestIdParts]

/-- Witness for the amended C4 theorem at the repo's own identifier format,
`com.mhmoeller.CPH`: author "mhmoeller", target folder name "CPH". -/
theorem manifest_authorCity_amended_witness :
    authorCity (some "com.mhmoeller.CPH") =
      ((jsSplit "com.mhmoeller.CPH" '.').getD 1 "Unknown",
       joinSep "." ((jsSplit "com.mhmoeller.CPH" '.').drop 2)) :=
  ((manifest_authorCity_amended (some "com.mhmoeller.CPH")).1 "com.mhmoeller.CPH"
    rfl (by decide)).1 (by decide)

/-! ## Claim C5 -/

/-- Claim C5 (confirmed): `findSourceDataFolder` returns `startDir/data`
whenever that path is a directory — nested `data` directories one level
deeper notwithstanding — and otherwise returns the `data` child of the first
immediate sub-directory (an entry of `startDir` that is a directory) whose
`data` child is a directory, in directory-listing order; when neither
exists it returns `none`, which the function itself does not treat as an
error (the caller decides). -/
theorem findSourceDataFolder_spec_correct (fs : FSModel) (startDir : String) :
    findSourceDataFolder fs startDir =
      if fs.isDir (pathJoin [startDir, "data"]) then some (pathJoin [startDir, "data"])
      else
        ((fs.listDir startDir).find? (fun f =>
            fs.isDir (pathJoin [startDir, f]) && fs.isDir (pathJoin [startDir, f, "data"]))).map
          (fun f => pathJoin [startDir, f, "data"]) := by
  by_cases h : fs.isDir (pathJoin [startDir, "data"]) = true
  · simp [findSourceDataFolder, h]
  · simp only [findSourceDataFolder, h, Bool.false_eq_true, if_false]
    rw [find?_filter_eq]
    cases hf : (fs.listDir startDir).find? (fun f =>
        fs.isDir (pathJoin [startDir, f]) && fs.isDir (pathJoin [startDir, f, "data"])) with
    | none => simp [hf]
    | some sub => simp [hf]

/-! ## Claim C6 -/

/-- Claim C6 (confirmed): when the helper executable already exists at its
expected path, `installPmtiles` only ensures the scripts directory and
returns (CHECK transitions directly to DONE): the trace contains zero
network requests, whatever the version endpoint would have answered and
whatever the platform and architecture are. -/
theorem installPmtiles_existing_exe_no_network (versionResult : Option String)
    (platform arch : String) :
    installPmtilesEvents true versionResult platform arch =
      [PmEvent.ensureScriptsDir, PmEvent.done] ∧
    (installPmtilesEvents true versionResult platform arch).countP
      PmEvent.isNetRequest = 0 :=
  ⟨rfl, rfl⟩

/-! ## Claim C7 -/

/-- Claim C7 (confirmed): when some but not all of the five data files are
present and the rest of the pipeline succeeds, the run completes: each
missing file yields exactly a warning event, the remaining files are still
copied, the reported summary count is the number of present files (strictly
between 0 and 5), and the exit status is 0 — the copy count never influences
the exit code. -/
theorem install_partial_copy_success (srcHas : String → Bool)
    (hmiss : ∃ f ∈ DATA_FILES, srcHas f = false)
    (hsome : ∃ f ∈ DATA_FILES, srcHas f = true) :
    exitCodeOf (installRun true srcHas (fun _ => true) true) = 0 ∧
    installRun true srcHas (fun _ => true) true =
      InstallOutcome.completed (DATA_FILES.countP srcHas)
        (DATA_FILES.map fun f =>
          if srcHas f then FileEvent.copied f else FileEvent.warnMissing f) ∧
    DATA_FILES.countP srcHas < DATA_FILES.length ∧
    0 < DATA_FILES.countP srcHas := by
  have hrun : installRun true srcHas (fun _ => true) true =
      InstallOutcome.completed (DATA_FILES.countP srcHas)
        (DATA_FILES.map fun f =>
          if srcHas f then FileEvent.copied f else FileEvent.warnMissing f) := by
    simp [installRun, copyDataFiles_allOk]
  refine ⟨by rw [hrun]; rfl, hrun, ?_, ?_⟩
  · obtain ⟨f, hf, hffalse⟩ := hmiss
    have hle : DATA_FILES.countP srcHas ≤ DATA_FILES.length :=
      List.countP_le_length srcHas
    have hne : DATA_FILES.countP srcHas ≠ DATA_FILES.length := by
      intro heq
      have := (List.countP_eq_length.mp heq) f hf
      rw [hffalse] at this
      exact Bool.false_ne_true this
    omega
  · exact List.countP_pos_iff.mpr hsome

/-- Witness for C7 at the concrete predicate "only roads.geojson.gz is
present": one file copied, four warnings, exit status 0. -/
theorem install_partial_copy_success_witness :
    exitCodeOf (installRun true (fun f => f == "roads.geojson.gz") (fun _ => true) true) = 0 ∧
    installRun true (fun f => f == "roads.geojson.gz") (fun _ => true) true =
      InstallOutcome.completed (DATA_FILES.countP (fun f => f == "roads.geojson.gz"))
        (DATA_FILES.map fun f =>
          if f == "roads.geojson.gz" then FileEvent.copied f else FileEvent.warnMissing f) ∧
    DATA_FILES.countP (fun f => f == "roads.geojson.gz") < DATA_FILES.length ∧
    0 < DATA_FILES.countP (fun f => f == "roads.geojson.gz") :=
  install_partial_copy_success (fun f => f == "roads.geojson.gz") (by decide) (by decide)

/-! ## Claim C8 -/

/-- Claim C8 (confirmed): the copy step, as a transformer of the destination
directory state, (i) yields for every file name the source bytes whenever
some listed file of that name exists in the source — overwriting whatever
the destination previously held — and the old destination content otherwise;
and (ii) is idempotent: running it a second time with unchanged sources
changes nothing, so the destination bytes equal those of a single run. -/
theorem applyCopy_overwrite_idempotent (src dest : String → Option (List Nat))
    (files : List String) :
    applyCopy src dest files =
      (fun g => if files.any (fun f => f == g && (src f).isSome) then src g else dest g) ∧
    applyCopy src (applyCopy src dest files) files = applyCopy src dest files := by
  constructor
  · funext g
    exact applyCopy_apply src dest files g
  · funext g
    rw [applyCopy_apply src (applyCopy src dest files) files g]
    by_cases h : files.any (fun f => f == g && (src f).isSome)
    · rw [if_pos h, applyCopy_apply src dest files g, if_pos h]
    · rw [if_neg h]

/-! ## Claim C9 -/

/-- Claim C9 (confirmed): `createServeBatch` is declared with the single
parameter `baseDir`, so the extra argument passed at the call site in
`install` is dropped by JavaScript call semantics: the generated launcher
(its path and its content, including the embedded `cd` target
`path.join(baseDir, 'scripts')`) is computed from the first argument alone,
and the second argument has no effect. -/
theorem createServeBatch_ignores_second_arg
    (platform displayName currentDir s₁ s₂ : String) :
    createServeBatchCall platform displayName currentDir s₁ =
      createServeBatchCall platform displayName currentDir s₂ ∧
    createServeBatchCall platform displayName currentDir s₁ =
      (if platform = "win32" then
        (pathJoin [currentDir, "serve.bat"],
         serveBatchContentWin displayName (pathJoin [currentDir, "scripts"]))
      else
        (pathJoin [currentDir, "serve.sh"],
         serveBatchContentUnix (pathJoin [currentDir, "scripts"]))) :=
  ⟨rfl, rfl⟩

/-! ## Claim C10 -/

/-- Claim C10 (confirmed): on every non-Windows platform the fatal branch of
`getGameDataPath` is unreachable — the base path is `path.join` applied to
the home directory, and `path.join` never returns the empty string — and the
fatal exit can occur only on win32 with `process.env.APPDATA` unset, where
"unset" is the JavaScript falsiness the source tests: the variable absent or
holding the empty string. -/
theorem getGameDataPath_fatal_only_win32 (platform : String)
    (appdataEnv : Option String) (homedir : String) :
    (platform ≠ "win32" → ∃ p, getGameDataPath platform appdataEnv homedir = some p) ∧
    (getGameDataPath platform appdataEnv homedir = none →
      platform = "win32" ∧ (appdataEnv = none ∨ appdataEnv = some "")) := by
  by_cases hw : platform = "win32"
  · subst hw
    refine ⟨fun h => absurd rfl h, fun h => ⟨rfl, ?_⟩⟩
    cases happ : appdataEnv with
    | none => exact Or.inl rfl
    | some s =>
      refine Or.inr ?_
      rw [happ] at h
      simp only [getGameDataPath, if_pos rfl] at h
      by_cases hs : s = ""
      · rw [hs]
      · simp [hs] at h
  · constructor
    · intro _
      by_cases hd : platform = "darwin"
      · refine ⟨pathJoin [pathJoin [homedir, "Library", "Application Support"],
            GAME_FOLDER_NAME], ?_⟩
        simp [getGameDataPath, hw, hd, pathJoin_ne_empty]
      · refine ⟨pathJoin [pathJoin [homedir, ".config"], GAME_FOLDER_NAME], ?_⟩
        simp [getGameDataPath, hw, hd, pathJoin_ne_empty]
    · intro h
      exfalso
      by_cases hd : platform = "darwin" <;>
        simp [getGameDataPath, hw, hd, pathJoin_ne_empty] at h

/-- Witness for C10 on a concrete non-Windows input: on linux with no
APPDATA variable and home directory "/home/user" the function returns a
path rather than exiting. -/
theorem getGameDataPath_fatal_only_win32_witness :
    ∃ p, getGameDataPath "linux" none "/home/user" = some p :=
  (getGameDataPath_fatal_only_win32 "linux" none "/home/user").1 (by decide)
